import Mathlib

/-!
Shallow embedding of the Wallet Ledger & Settlement Engine of `src/bot.py`
(casino chat bot).  Monetary amounts are modelled as rationals, the MongoDB
collections (`users`, `transactions`, `games_history`) as lists of records,
and the single-document atomic Mongo operations (`find_one`, `update_one`
with `$inc`/`$set`, `insert_one` under a unique index) as list operations
acting on the first matching element.  Handlers are modelled from the point
where the request has been authenticated and the user id extracted; the
external payment gateway's responses are parameters of the operations.
Python `random` draws are modelled by an injected stream of integers (for
`randint`, reduced into the requested range) and of rationals (for
`random()`).
-/

namespace CasinoBot

/-- Environment-sourced configuration (`MIN_DEPOSIT`, `MIN_WITHDRAW`, `MAX_BET`). -/
structure Config where
  min_deposit : ℚ
  min_withdraw : ℚ
  max_bet : ℚ

/-- A document of the `users` collection.  Only the fields read or written by
the settlement logic are carried (`username` and the timestamps are never
read by it). -/
structure UserRec where
  user_id : ℕ
  balance : ℚ
deriving DecidableEq

/-- A document of the `transactions` collection, as inserted by
`process_deposit` (with an `invoice_id`) or `process_withdraw` (without one,
but with a `check_url`). -/
structure TxnRec where
  user_id : ℕ
  typ : String
  amount : ℚ
  status : String
  invoice_id : Option String
  check_url : Option String
deriving DecidableEq

/-- A document of the `games_history` collection. -/
structure GameRound where
  user_id : ℕ
  game_type : String
  bet_amount : ℚ
  win_amount : ℚ
deriving DecidableEq

/-- The state of the three MongoDB collections. -/
structure St where
  users : List UserRec
  transactions : List TxnRec
  games_history : List GameRound
deriving DecidableEq

/-- An injected randomness source: `ints k` is the `k`-th `randint` draw of a
handler invocation (reduced into the requested range by the consumer) and
`floats k` the `k`-th `random()` draw. -/
structure Rng where
  ints : ℕ → ℕ
  floats : ℕ → ℚ

/-- The fixed slot-reel symbol set of `slots_game`. -/
def symbols : List String := ["🍒", "🍋", "🍉", "⭐", "💎", "7️⃣"]

/-- Reel symbol `symbols[n % 6]`, as drawn by `random.randint(0, len(symbols)-1)`. -/
def symAt (n : ℕ) : String :=
  symbols.get ⟨n % 6, by have h : n % 6 < 6 := Nat.mod_lt n (by decide); simpa [symbols] using h⟩

/-- Variant-specific outcome payload of a game result dictionary. -/
inductive Outcome
  | slots (reels : List String)
  | roulette (number : ℕ) (color : String)
deriving DecidableEq

/-- The result dictionary returned by `slots_game` / `roulette_game`. -/
structure GameResult where
  outcome : Outcome
  multiplier : ℚ
  win_amount : ℚ
  is_win : Bool
deriving DecidableEq

/-- Source function `slots_game` of `src/bot.py`: three uniform reel draws; multiplier 10 for
a triple top symbol, 5 for a triple second-tier symbol, 3 for any other
triple, 1.5 when reel 0 matches reel 1 or reel 1 matches reel 2, else 0. -/
def slots_game (bet_amount : ℚ) (rng : Rng) : GameResult :=
  let r0 := symAt (rng.ints 0)
  let r1 := symAt (rng.ints 1)
  let r2 := symAt (rng.ints 2)
  let multiplier : ℚ :=
    if r0 = r1 ∧ r1 = r2 then
      if r0 = "7️⃣" then 10
      else if r0 = "💎" then 5
      else 3
    else if r0 = r1 ∨ r1 = r2 then 3/2
    else 0
  let win_amount := bet_amount * multiplier
  { outcome := Outcome.slots [r0, r1, r2]
    multiplier := multiplier
    win_amount := win_amount
    is_win := decide (bet_amount < win_amount) }

/-- The red numbers of the roulette color table. -/
def redNumbers : List ℕ := [1, 3, 5, 7, 9, 12, 14, 16, 18, 19, 21, 23, 25, 27, 30, 32, 34, 36]

/-- Source function `roulette_game` of `src/bot.py`: a cosmetic number/color draw, then a
win decided by `random.random() < 0.48`; multiplier 2 on win, else 0. -/
def roulette_game (bet_amount : ℚ) (rng : Rng) : GameResult :=
  let number := rng.ints 0 % 37
  let color0 := if number ∈ redNumbers then "red" else "black"
  let color := if number = 0 then "green" else color0
  let is_win := decide (rng.floats 0 < 48/100)
  let multiplier : ℚ := if is_win then 2 else 0
  { outcome := Outcome.roulette number color
    multiplier := multiplier
    win_amount := bet_amount * multiplier
    is_win := is_win }

/-- Source function `process_game` of `src/bot.py`: dispatch on the game type string, with
slots as the fallback for any unrecognized game type. -/
def process_game (game_type : String) (bet_amount : ℚ) (rng : Rng) : GameResult :=
  if game_type = "slots" then slots_game bet_amount rng
  else if game_type = "roulette" then roulette_game bet_amount rng
  else slots_game bet_amount rng

/-- Mongo `db.users.find_one({"user_id": uid})`: first user document matching the id
(the unique index on `user_id` keeps at most one in reachable states). -/
def find_user (s : St) (uid : ℕ) : Option UserRec :=
  s.users.find? (fun u => decide (u.user_id = uid))

/-- Mongo `db.users.update_one({"user_id": uid}, {"$inc": {"balance": d}})`:
increment the balance of the first matching document; no-op when none matches
(`update_one` with `upsert=False`). -/
def inc_first_balance (uid : ℕ) (d : ℚ) : List UserRec → List UserRec
  | [] => []
  | u :: rest =>
    if u.user_id = uid then { u with balance := u.balance + d } :: rest
    else u :: inc_first_balance uid d rest

/-- State-level balance increment (only the `users` collection changes). -/
def adjust_balance (s : St) (uid : ℕ) (d : ℚ) : St :=
  { s with users := inc_first_balance uid d s.users }

/-- The balance the store holds for a user, when the user document exists. -/
def balanceOf (s : St) (uid : ℕ) : Option ℚ :=
  (find_user s uid).map UserRec.balance

/-- Result of `db.transactions.insert_one` under the unique index on
`invoice_id` created by `init_db` (a missing field indexes as null, so two
documents without an `invoice_id` also collide). -/
inductive InsertRes
  | ok
  | duplicateKeyError
deriving DecidableEq

/-- Mongo `db.transactions.insert_one(r)` under the unique `invoice_id` index:
appends the document, or raises `DuplicateKeyError` leaving the collection
unchanged when some stored document has the same `invoice_id` value. -/
def insert_one (txns : List TxnRec) (r : TxnRec) : List TxnRec × InsertRes :=
  if txns.any (fun t => decide (t.invoice_id = r.invoice_id)) then (txns, InsertRes.duplicateKeyError)
  else (txns ++ [r], InsertRes.ok)

/-- Mongo `db.transactions.find_one({"invoice_id": inv, "status": "completed"})`. -/
def find_completed_txn (txns : List TxnRec) (inv : String) : Option TxnRec :=
  txns.find? (fun t => decide (t.invoice_id = some inv) && decide (t.status = "completed"))

/-- Mongo `db.transactions.update_one({"invoice_id": inv}, {"$set": {"status": "completed"}})`:
set the status of the first document with the given invoice id. -/
def mark_completed (inv : String) : List TxnRec → List TxnRec
  | [] => []
  | t :: rest =>
    if t.invoice_id = some inv then { t with status := "completed" } :: rest
    else t :: mark_completed inv rest

/-- Outcome of the `/api/game/play` handler, past authentication. -/
inductive PlayRes
  | invalidBet
  | insufficientBalance
  | ok (result : GameResult) (new_balance : ℚ)
  | crashed
deriving DecidableEq

/-- Source handler `game_play` of `src/bot.py` (the `/api/game/play` handler), modelled from
the point where `validate_telegram_data` has accepted the request and
`extract_user_id` has produced `uid`.  A missing user document is reported as
`insufficientBalance`, exactly like the source's `if not user or
user['balance'] < bet_amount`.  The final `find_one` re-read that produces
`new_balance` is modelled by `balanceOf` on the written state. -/
def game_play (cfg : Config) (s : St) (uid : ℕ) (game_type : String) (bet_amount : ℚ)
    (rng : Rng) : St × PlayRes :=
  if ¬ (1/10 ≤ bet_amount ∧ bet_amount ≤ cfg.max_bet) then (s, PlayRes.invalidBet)
  else
    match find_user s uid with
    | none => (s, PlayRes.insufficientBalance)
    | some user =>
      if user.balance < bet_amount then (s, PlayRes.insufficientBalance)
      else
        let s1 := adjust_balance s uid (-bet_amount)
        let result := process_game game_type bet_amount rng
        let s2 := adjust_balance s1 uid result.win_amount
        let s3 : St := { s2 with games_history := s2.games_history ++
          [{ user_id := uid, game_type := game_type, bet_amount := bet_amount,
             win_amount := result.win_amount }] }
        match balanceOf s3 uid with
        | some nb => (s3, PlayRes.ok result nb)
        | none => (s3, PlayRes.crashed)

/-- The invoice returned by the gateway's `createInvoice` call. -/
structure InvoiceInfo where
  invoice_id : String
  pay_url : String
deriving DecidableEq

/-- Outcome of the deposit-initiation handler. -/
inductive DepositInitRes
  | belowMin
  | gatewayError
  | invoiceCreated (inv : InvoiceInfo)
  | crashed
deriving DecidableEq

/-- Source handler `process_deposit` of `src/bot.py`: validate the minimum, create an
invoice through the gateway (its response is the parameter `gw`; `none`
models a non-`ok` response), and record a pending transaction bearing the
invoice id.  A `DuplicateKeyError` from the insert is uncaught in the source
(`except ValueError` only), modelled as `crashed`. -/
def process_deposit (cfg : Config) (s : St) (uid : ℕ) (amount : ℚ)
    (gw : Option InvoiceInfo) : St × DepositInitRes :=
  if amount < cfg.min_deposit then (s, DepositInitRes.belowMin)
  else
    match gw with
    | none => (s, DepositInitRes.gatewayError)
    | some inv =>
      match insert_one s.transactions
          { user_id := uid, typ := "deposit", amount := amount, status := "pending",
            invoice_id := some inv.invoice_id, check_url := none } with
      | (txns, InsertRes.ok) =>
        ({ s with transactions := txns }, DepositInitRes.invoiceCreated inv)
      | (txns, InsertRes.duplicateKeyError) =>
        ({ s with transactions := txns }, DepositInitRes.crashed)

/-- The gateway's `getInvoices` answer for one invoice id. -/
structure GwInvoiceStatus where
  status : String
  amount : ℚ
deriving DecidableEq

/-- Outcome of the `check_dep_<id>` callback handler. -/
inductive CheckDepRes
  | apiError
  | waitingPayment
  | success (amount : ℚ)
deriving DecidableEq

/-- Source handler `check_deposit` of `src/bot.py`: poll the gateway for the invoice status
(`gw`; `none` models a non-`ok` response).  When the gateway reports `paid`,
look for an already-completed transaction with this invoice id; if none is
found, credit the gateway-reported amount to the *invoking* user and set the
status of the first transaction bearing the invoice id to completed.  The
success message is shown whether or not a credit was performed. -/
def check_deposit (s : St) (uid : ℕ) (invoice_id : String)
    (gw : Option GwInvoiceStatus) : St × CheckDepRes :=
  match gw with
  | none => (s, CheckDepRes.apiError)
  | some info =>
    if info.status = "paid" then
      let amount := info.amount
      match find_completed_txn s.transactions invoice_id with
      | none =>
        let s1 := adjust_balance s uid amount
        let s2 := { s1 with transactions := mark_completed invoice_id s1.transactions }
        (s2, CheckDepRes.success amount)
      | some _ => (s, CheckDepRes.success amount)
    else (s, CheckDepRes.waitingPayment)

/-- The check returned by the gateway's `createCheck` call. -/
structure CheckInfo where
  check_id : String
  bot_check_url : String
deriving DecidableEq

/-- Outcome of the withdrawal handler. -/
inductive WithdrawRes
  | belowMin
  | crashedNoUser
  | insufficientFunds
  | gatewayError
  | success (check : CheckInfo)
  | crashedAfterDebit
deriving DecidableEq

/-- Source handler `process_withdraw` of `src/bot.py`: fetch the user, validate the minimum
and the balance, create a check through the gateway (`gw`; `none` models a
non-`ok` response), and only then debit the balance and record a completed
withdrawal transaction.  A missing user document raises an uncaught
`TypeError` at the balance comparison (`crashedNoUser`); a
`DuplicateKeyError` from the insert is uncaught and leaves the debit applied
(`crashedAfterDebit`). -/
def process_withdraw (cfg : Config) (s : St) (uid : ℕ) (amount : ℚ)
    (gw : Option CheckInfo) : St × WithdrawRes :=
  let user_data := find_user s uid
  if amount < cfg.min_withdraw then (s, WithdrawRes.belowMin)
  else
    match user_data with
    | none => (s, WithdrawRes.crashedNoUser)
    | some user =>
      if user.balance < amount then (s, WithdrawRes.insufficientFunds)
      else
        match gw with
        | none => (s, WithdrawRes.gatewayError)
        | some check =>
          let s1 := adjust_balance s uid (-amount)
          match insert_one s1.transactions
              { user_id := uid, typ := "withdraw", amount := amount, status := "completed",
                invoice_id := none, check_url := some check.bot_check_url } with
          | (txns, InsertRes.ok) =>
            ({ s1 with transactions := txns }, WithdrawRes.success check)
          | (txns, InsertRes.duplicateKeyError) =>
            ({ s1 with transactions := txns }, WithdrawRes.crashedAfterDebit)

/-- The `/start` handler's user upsert: `$setOnInsert` creates the document
with balance 0 only when absent, never resetting an existing balance. -/
def start_user (s : St) (uid : ℕ) : St :=
  match find_user s uid with
  | some _ => s
  | none => { s with users := s.users ++ [{ user_id := uid, balance := 0 }] }

/-- One engine operation, together with the gateway responses and randomness
it consumes. -/
inductive Ev
  | start (uid : ℕ)
  | play (uid : ℕ) (game_type : String) (bet_amount : ℚ) (rng : Rng)
  | depositInit (uid : ℕ) (amount : ℚ) (gw : Option InvoiceInfo)
  | depositCheck (uid : ℕ) (invoice_id : String) (gw : Option GwInvoiceStatus)
  | withdraw (uid : ℕ) (amount : ℚ) (gw : Option CheckInfo)

/-- Apply one operation to the store state. -/
def stepEv (cfg : Config) (s : St) : Ev → St
  | Ev.start uid => start_user s uid
  | Ev.play uid gt bet rng => (game_play cfg s uid gt bet rng).1
  | Ev.depositInit uid amount gw => (process_deposit cfg s uid amount gw).1
  | Ev.depositCheck uid inv gw => (check_deposit s uid inv gw).1
  | Ev.withdraw uid amount gw => (process_withdraw cfg s uid amount gw).1

/-- Run a sequence of operations from the empty store. -/
def runEvents (cfg : Config) (evs : List Ev) : St :=
  evs.foldl (stepEv cfg) { users := [], transactions := [], games_history := [] }

/-- Well-formedness of the environment's inputs: the payment gateway never
reports a negative invoice amount. -/
def WfEv : Ev → Prop
  | Ev.depositCheck _ _ (some info) => 0 ≤ info.amount
  | _ => True

/-- Every user balance in the store is non-negative. -/
def NNBal (l : List UserRec) : Prop := ∀ u ∈ l, 0 ≤ u.balance

/-- Repetition, `n`-fold, of the deposit-confirmation callback for one invoice
id, with a fixed gateway response. -/
def confirmN (uid : ℕ) (invoice_id : String) (info : GwInvoiceStatus) : ℕ → St → St
  | 0, s => s
  | n + 1, s => (check_deposit (confirmN uid invoice_id info n s) uid invoice_id (some info)).1

/-- The slots payout multiplier as the spec's §8 words state it (for
comparison with the translated `slots_game`): 10 for a triple of the top
symbol, 5 for a triple of the second-tier symbol, 3 for any other triple
match, 1.5 when exactly an adjacent pair matches (positions 0-1 or 1-2, not
0-2 alone), else 0. -/
def specSlotsMultiplier (r0 r1 r2 : String) : ℚ :=
  if r0 = r1 ∧ r1 = r2 then
    if r0 = "7️⃣" then 10
    else if r0 = "💎" then 5
    else 3
  else if (r0 = r1 ∧ r1 ≠ r2) ∨ (r1 = r2 ∧ r0 ≠ r1) then 3/2
  else 0

/-- The two keyed-hash primitives used by `validate_telegram_data`, kept
abstract: `raw` is `hmac.new(key, msg, sha256).digest()` and `hex` is
`hmac.new(key, msg, sha256).hexdigest()`. -/
structure HmacModel where
  raw : String → String → String
  hex : String → String → String

/-- The last value stored under a key in a pair list, if any. -/
def lastVal (k : String) : List (String × String) → Option String
  | [] => none
  | (k', v) :: rest =>
    match lastVal k rest with
    | some w => some w
    | none => if k' = k then some v else none

/-- Model of `dict(parse_qsl(init_data))`: duplicate keys collapse to their last
value, at the position of their first occurrence.  The input is the pair
list produced by `parse_qsl`. -/
def dictOf : List (String × String) → List (String × String)
  | [] => []
  | (k, v) :: rest =>
    (k, (lastVal k rest).getD v) :: dictOf (rest.filter (fun kv => decide (kv.fst ≠ k)))
termination_by l => l.length
decreasing_by
  simp only [List.length_cons]
  exact Nat.lt_succ_of_le (List.length_filter_le _ _)

/-- Insert a string into a lexicographically sorted list. -/
def insertSorted (x : String) : List String → List String
  | [] => [x]
  | y :: rest => if x ≤ y then x :: y :: rest else y :: insertSorted x rest

/-- Python's `sorted` on a list of strings (lexicographic insertion sort). -/
def sortStrings : List String → List String
  | [] => []
  | x :: rest => insertSorted x (sortStrings rest)

/-- Supplied signature field `data.pop('hash', '')` after `dict(parse_qsl(...))`: the supplied
signature field, defaulting to the empty string. -/
def received_hash (data : List (String × String)) : String :=
  ((data.find? (fun kv => decide (kv.fst = "hash"))).map Prod.snd).getD ("")

/-- The canonical `data_check_string`: every field except `hash` rendered as
`k=v`, sorted lexicographically, joined with newline. -/
def data_check_string (data : List (String × String)) : String :=
  String.intercalate ("\n")
    (sortStrings ((data.filter (fun kv => decide (kv.fst ≠ "hash"))).map
      (fun kv => kv.fst ++ "=" ++ kv.snd)))

/-- Source function `validate_telegram_data` of `src/bot.py`: derive a secret from the bot
token via one keyed hash step with key `WebAppData`, hash the canonical form
of the non-signature fields with it, and compare with the supplied signature.
The comparison is the source's plain string equality (`==`), not a
constant-time comparison. -/
def validate_telegram_data (hm : HmacModel) (botToken : String)
    (pairs : List (String × String)) : Bool :=
  let data := dictOf pairs
  let secret_key := hm.raw ("WebAppData") botToken
  let calculated_hash := hm.hex secret_key (data_check_string data)
  decide (calculated_hash = received_hash data)

/-- Source function `extract_user_id` of `src/bot.py`: parse the `user` field (defaulting to
the empty JSON object) with the JSON decoder — kept abstract as
`parseUserId` — and return the embedded numeric id. -/
def extract_user_id (parseUserId : String → Option Int)
    (pairs : List (String × String)) : Option Int :=
  let data := dictOf pairs
  parseUserId (((data.find? (fun kv => decide (kv.fst = "user"))).map Prod.snd).getD ("\x7b\x7d"))

/-! Helper lemmas about the first-match list operations. -/

theorem find?_inc_first_eq {l : List UserRec} {uid : ℕ} {u : UserRec} (d : ℚ)
    (h : l.find? (fun x => decide (x.user_id = uid)) = some u) :
    (inc_first_balance uid d l).find? (fun x => decide (x.user_id = uid)) =
      some { u with balance := u.balance + d } := by
  induction l with
  | nil => simp at h
  | cons x rest ih =>
    by_cases hx : x.user_id = uid
    · rw [List.find?_cons_of_pos _ (by simpa using hx)] at h
      cases h
      simp only [inc_first_balance, if_pos hx]
      exact List.find?_cons_of_pos _ (by simpa using hx)
    · rw [List.find?_cons_of_neg _ (by simpa using hx)] at h
      simp only [inc_first_balance, if_neg hx]
      rw [List.find?_cons_of_neg _ (by simpa using hx)]
      exact ih h

theorem find?_inc_first_ne {l : List UserRec} {uid uid' : ℕ} (d : ℚ) (hne : uid' ≠ uid) :
    (inc_first_balance uid d l).find? (fun x => decide (x.user_id = uid')) =
      l.find? (fun x => decide (x.user_id = uid')) := by
  induction l with
  | nil => rfl
  | cons x rest ih =>
    by_cases hx : x.user_id = uid
    · simp only [inc_first_balance, if_pos hx]
      by_cases hx' : x.user_id = uid'
      · exact absurd (hx' ▸ hx) (by simpa [eq_comm] using hne)
      · rw [List.find?_cons_of_neg _ (by simpa using hx'),
          List.find?_cons_of_neg _ (by simpa using hx')]
    · simp only [inc_first_balance, if_neg hx]
      by_cases hx' : x.user_id = uid'
      · rw [List.find?_cons_of_pos _ (by simpa using hx'),
          List.find?_cons_of_pos _ (by simpa using hx')]
      · rw [List.find?_cons_of_neg _ (by simpa using hx'),
          List.find?_cons_of_neg _ (by simpa using hx')]
        exact ih

theorem nn_inc_first {l : List UserRec} {uid : ℕ} {d : ℚ} (hl : NNBal l)
    (hmatch : ∀ u, l.find? (fun x => decide (x.user_id = uid)) = some u → 0 ≤ u.balance + d) :
    NNBal (inc_first_balance uid d l) := by
  induction l with
  | nil => intro u hu; simp [inc_first_balance] at hu
  | cons x rest ih =>
    intro u hu
    by_cases hx : x.user_id = uid
    · simp only [inc_first_balance, if_pos hx] at hu
      rcases List.mem_cons.mp hu with h | h
      · subst h
        exact hmatch x (List.find?_cons_of_pos _ (by simpa using hx))
      · exact hl u (List.mem_cons_of_mem _ h)
    · simp only [inc_first_balance, if_neg hx] at hu
      rcases List.mem_cons.mp hu with h | h
      · subst h; exact hl u (List.mem_cons_self _ _)
      · refine ih (fun v hv => hl v (List.mem_cons_of_mem _ hv)) ?_ u h
        intro v hv
        exact hmatch v (by rw [List.find?_cons_of_neg _ (by simpa using hx)]; exact hv)

theorem nn_inc_first_of_nonneg {l : List UserRec} {uid : ℕ} {d : ℚ} (hl : NNBal l)
    (hd : 0 ≤ d) : NNBal (inc_first_balance uid d l) := by
  refine nn_inc_first hl fun u hu => ?_
  have hm : u ∈ l := List.mem_of_find?_eq_some hu
  exact add_nonneg (hl u hm) hd

/-! Helper lemmas about the game engine's payout arithmetic. -/

theorem slots_game_multiplier_nonneg (bet : ℚ) (rng : Rng) :
    0 ≤ (slots_game bet rng).multiplier := by
  show (0 : ℚ) ≤ if _ ∧ _ then _ else _
  split_ifs <;> norm_num

theorem roulette_game_multiplier_nonneg (bet : ℚ) (rng : Rng) :
    0 ≤ (roulette_game bet rng).multiplier := by
  show (0 : ℚ) ≤ if _ then _ else _
  split_ifs <;> norm_num

theorem process_game_multiplier_nonneg (gt : String) (bet : ℚ) (rng : Rng) :
    0 ≤ (process_game gt bet rng).multiplier := by
  unfold process_game
  split_ifs <;>
    first
      | exact slots_game_multiplier_nonneg bet rng
      | exact roulette_game_multiplier_nonneg bet rng

theorem slots_game_win_amount (bet : ℚ) (rng : Rng) :
    (slots_game bet rng).win_amount = bet * (slots_game bet rng).multiplier := rfl

theorem roulette_game_win_amount (bet : ℚ) (rng : Rng) :
    (roulette_game bet rng).win_amount = bet * (roulette_game bet rng).multiplier := rfl

theorem process_game_win_amount (gt : String) (bet : ℚ) (rng : Rng) :
    (process_game gt bet rng).win_amount = bet * (process_game gt bet rng).multiplier := by
  unfold process_game
  split_ifs <;> rfl

theorem process_game_win_nonneg {gt : String} {bet : ℚ} (rng : Rng) (hbet : 0 ≤ bet) :
    0 ≤ (process_game gt bet rng).win_amount := by
  rw [process_game_win_amount]
  exact mul_nonneg hbet (process_game_multiplier_nonneg gt bet rng)

/-! Evaluation lemmas describing each handler's effect on the store, per
branch of its control flow. -/

theorem game_play_invalid (cfg : Config) (s : St) (uid : ℕ) (gt : String) (bet : ℚ)
    (rng : Rng) (hv : ¬ (1/10 ≤ bet ∧ bet ≤ cfg.max_bet)) :
    game_play cfg s uid gt bet rng = (s, PlayRes.invalidBet) := by
  unfold game_play
  rw [if_pos hv]

theorem game_play_no_user (cfg : Config) (s : St) (uid : ℕ) (gt : String) (bet : ℚ)
    (rng : Rng) (hv : 1/10 ≤ bet ∧ bet ≤ cfg.max_bet) (hu : find_user s uid = none) :
    game_play cfg s uid gt bet rng = (s, PlayRes.insufficientBalance) := by
  unfold game_play
  rw [if_neg (not_not_intro hv), hu]

theorem game_play_insufficient (cfg : Config) (s : St) (uid : ℕ) (gt : String) (bet : ℚ)
    (rng : Rng) (user : UserRec) (hv : 1/10 ≤ bet ∧ bet ≤ cfg.max_bet)
    (hu : find_user s uid = some user) (hb : user.balance < bet) :
    game_play cfg s uid gt bet rng = (s, PlayRes.insufficientBalance) := by
  unfold game_play
  rw [if_neg (not_not_intro hv), hu]
  dsimp only
  rw [if_pos hb]

theorem game_play_accept_state (cfg : Config) (s : St) (uid : ℕ) (gt : String) (bet : ℚ)
    (rng : Rng) (user : UserRec) (hv : 1/10 ≤ bet ∧ bet ≤ cfg.max_bet)
    (hu : find_user s uid = some user) (hb : ¬ user.balance < bet) :
    (game_play cfg s uid gt bet rng).1 =
      { users := inc_first_balance uid (process_game gt bet rng).win_amount
          (inc_first_balance uid (-bet) s.users),
        transactions := s.transactions,
        games_history := s.games_history ++
          [{ user_id := uid, game_type := gt, bet_amount := bet,
             win_amount := (process_game gt bet rng).win_amount }] } := by
  unfold game_play
  rw [if_neg (not_not_intro hv), hu]
  dsimp only
  rw [if_neg hb]
  dsimp only [adjust_balance]
  generalize balanceOf _ uid = o
  cases o <;> rfl

/-! Preservation of balance non-negativity by each engine operation. -/

theorem nn_game_play (cfg : Config) (s : St) (uid : ℕ) (gt : String) (bet : ℚ) (rng : Rng)
    (hs : NNBal s.users) : NNBal (game_play cfg s uid gt bet rng).1.users := by
  by_cases hv : 1/10 ≤ bet ∧ bet ≤ cfg.max_bet
  · cases hu : find_user s uid with
    | none => rw [game_play_no_user cfg s uid gt bet rng hv hu]; exact hs
    | some user =>
      by_cases hb : user.balance < bet
      · rw [game_play_insufficient cfg s uid gt bet rng user hv hu hb]; exact hs
      · rw [game_play_accept_state cfg s uid gt bet rng user hv hu hb]
        have hbet : (0 : ℚ) ≤ bet := by
          rcases hv with ⟨h1, _⟩
          linarith
        have h1 : NNBal (inc_first_balance uid (-bet) s.users) := by
          refine nn_inc_first hs fun v hv' => ?_
          have hvu : v = user := by
            rw [find_user] at hu
            rw [hu] at hv'
            exact (Option.some_inj.mp hv').symm
          subst hvu
          have := not_lt.mp hb
          linarith
        exact nn_inc_first_of_nonneg h1 (process_game_win_nonneg rng hbet)
  · rw [game_play_invalid cfg s uid gt bet rng hv]; exact hs

theorem nn_process_deposit (cfg : Config) (s : St) (uid : ℕ) (amount : ℚ)
    (gw : Option InvoiceInfo) (hs : NNBal s.users) :
    NNBal (process_deposit cfg s uid amount gw).1.users := by
  unfold process_deposit
  split_ifs
  · exact hs
  · cases gw with
    | none => exact hs
    | some inv =>
      cases hins : insert_one s.transactions
          { user_id := uid, typ := "deposit", amount := amount, status := "pending",
            invoice_id := some inv.invoice_id, check_url := none } with
      | mk txns res => cases res <;> simpa [hins] using hs

theorem nn_check_deposit (s : St) (uid : ℕ) (inv : String) (gw : Option GwInvoiceStatus)
    (hgw : ∀ info, gw = some info → 0 ≤ info.amount) (hs : NNBal s.users) :
    NNBal (check_deposit s uid inv gw).1.users := by
  unfold check_deposit
  cases gw with
  | none => exact hs
  | some info =>
    simp only
    split_ifs with hp
    · cases hex : find_completed_txn s.transactions inv with
      | none =>
        simpa [adjust_balance] using
          nn_inc_first_of_nonneg hs (hgw info rfl)
      | some t => exact hs
    · exact hs

theorem process_withdraw_belowMin (cfg : Config) (s : St) (uid : ℕ) (amount : ℚ)
    (gw : Option CheckInfo) (hmin : amount < cfg.min_withdraw) :
    process_withdraw cfg s uid amount gw = (s, WithdrawRes.belowMin) := by
  unfold process_withdraw
  rw [if_pos hmin]

theorem process_withdraw_no_user (cfg : Config) (s : St) (uid : ℕ) (amount : ℚ)
    (gw : Option CheckInfo) (hmin : ¬ amount < cfg.min_withdraw)
    (hu : find_user s uid = none) :
    process_withdraw cfg s uid amount gw = (s, WithdrawRes.crashedNoUser) := by
  unfold process_withdraw
  rw [if_neg hmin, hu]

theorem process_withdraw_insufficient (cfg : Config) (s : St) (uid : ℕ) (amount : ℚ)
    (gw : Option CheckInfo) (user : UserRec) (hmin : ¬ amount < cfg.min_withdraw)
    (hu : find_user s uid = some user) (hb : user.balance < amount) :
    process_withdraw cfg s uid amount gw = (s, WithdrawRes.insufficientFunds) := by
  unfold process_withdraw
  rw [if_neg hmin, hu]
  dsimp only
  rw [if_pos hb]

theorem process_withdraw_gw_failure (cfg : Config) (s : St) (uid : ℕ) (amount : ℚ)
    (user : UserRec) (hmin : ¬ amount < cfg.min_withdraw)
    (hu : find_user s uid = some user) (hb : ¬ user.balance < amount) :
    process_withdraw cfg s uid amount none = (s, WithdrawRes.gatewayError) := by
  unfold process_withdraw
  rw [if_neg hmin, hu]
  dsimp only
  rw [if_neg hb]

theorem process_withdraw_accept_state (cfg : Config) (s : St) (uid : ℕ) (amount : ℚ)
    (check : CheckInfo) (user : UserRec) (hmin : ¬ amount < cfg.min_withdraw)
    (hu : find_user s uid = some user) (hb : ¬ user.balance < amount) :
    (process_withdraw cfg s uid amount (some check)).1 =
      { users := inc_first_balance uid (-amount) s.users,
        transactions := (insert_one s.transactions
          { user_id := uid, typ := "withdraw", amount := amount, status := "completed",
            invoice_id := none, check_url := some check.bot_check_url }).1,
        games_history := s.games_history } := by
  unfold process_withdraw
  rw [if_neg hmin, hu]
  dsimp only
  rw [if_neg hb]
  dsimp only [adjust_balance]
  generalize insert_one s.transactions _ = p
  cases p with
  | mk txns res => cases res <;> rfl

theorem nn_process_withdraw (cfg : Config) (s : St) (uid : ℕ) (amount : ℚ)
    (gw : Option CheckInfo) (hs : NNBal s.users) :
    NNBal (process_withdraw cfg s uid amount gw).1.users := by
  by_cases hmin : amount < cfg.min_withdraw
  · rw [process_withdraw_belowMin cfg s uid amount gw hmin]; exact hs
  · cases hu : find_user s uid with
    | none => rw [process_withdraw_no_user cfg s uid amount gw hmin hu]; exact hs
    | some user =>
      by_cases hb : user.balance < amount
      · rw [process_withdraw_insufficient cfg s uid amount gw user hmin hu hb]; exact hs
      · cases gw with
        | none => rw [process_withdraw_gw_failure cfg s uid amount user hmin hu hb]; exact hs
        | some check =>
          rw [process_withdraw_accept_state cfg s uid amount check user hmin hu hb]
          refine nn_inc_first hs fun v hv' => ?_
          have hvu : v = user := by
            rw [find_user] at hu
            rw [hu] at hv'
            exact (Option.some_inj.mp hv').symm
          subst hvu
          have := not_lt.mp hb
          linarith

theorem nn_start_user (s : St) (uid : ℕ) (hs : NNBal s.users) :
    NNBal (start_user s uid).users := by
  unfold start_user
  cases find_user s uid with
  | some u => exact hs
  | none =>
    intro v hv
    rcases List.mem_append.mp hv with h | h
    · exact hs v h
    · rcases List.mem_singleton.mp h with rfl
      norm_num

theorem nn_stepEv (cfg : Config) (s : St) (e : Ev) (he : WfEv e) (hs : NNBal s.users) :
    NNBal (stepEv cfg s e).users := by
  cases e with
  | start uid => exact nn_start_user s uid hs
  | play uid gt bet rng => exact nn_game_play cfg s uid gt bet rng hs
  | depositInit uid amount gw => exact nn_process_deposit cfg s uid amount gw hs
  | depositCheck uid inv gw =>
    refine nn_check_deposit s uid inv gw (fun info hinfo => ?_) hs
    subst hinfo
    exact he
  | withdraw uid amount gw => exact nn_process_withdraw cfg s uid amount gw hs

theorem nn_foldl (cfg : Config) :
    ∀ (evs : List Ev) (s : St), (∀ e ∈ evs, WfEv e) → NNBal s.users →
      NNBal (evs.foldl (stepEv cfg) s).users
  | [], _, _, hs => hs
  | e :: rest, s, he, hs =>
    nn_foldl cfg rest (stepEv cfg s e)
      (fun e' he' => he e' (List.mem_cons_of_mem _ he'))
      (nn_stepEv cfg s e (he e (List.mem_cons_self _ _)) hs)

/-! Evaluation lemmas for the deposit-confirmation handler, and helpers about
the transaction collection. -/

theorem find_completed_txn_eq_none {txns : List TxnRec} {inv : String}
    (h : ∀ t ∈ txns, t.invoice_id = some inv → t.status ≠ "completed") :
    find_completed_txn txns inv = none := by
  rw [find_completed_txn, List.find?_eq_none]
  intro t ht
  simp only [Bool.and_eq_true, decide_eq_true_eq, not_and]
  intro hid hst
  exact h t ht hid hst

theorem find_completed_txn_mem {txns : List TxnRec} {inv : String} {t : TxnRec}
    (ht : t ∈ txns) (hid : t.invoice_id = some inv) (hst : t.status = "completed") :
    ∃ t', find_completed_txn txns inv = some t' := by
  cases hf : find_completed_txn txns inv with
  | some t' => exact ⟨t', rfl⟩
  | none =>
    rw [find_completed_txn, List.find?_eq_none] at hf
    have := hf t ht
    simp only [Bool.and_eq_true, decide_eq_true_eq, not_and] at this
    exact absurd hst (this hid)

theorem mark_completed_split {l1 l2 : List TxnRec} {inv : String} {t : TxnRec}
    (hl1 : ∀ x ∈ l1, x.invoice_id ≠ some inv) (ht : t.invoice_id = some inv) :
    mark_completed inv (l1 ++ t :: l2) = l1 ++ { t with status := "completed" } :: l2 := by
  induction l1 with
  | nil => simp [mark_completed, if_pos ht]
  | cons x rest ih =>
    have hx : x.invoice_id ≠ some inv := hl1 x (List.mem_cons_self _ _)
    simp only [List.cons_append, mark_completed, if_neg hx]
    exact congrArg (x :: ·) (ih (fun y hy => hl1 y (List.mem_cons_of_mem _ hy)))

theorem check_deposit_paid_fresh (s : St) (uid : ℕ) (inv : String) (info : GwInvoiceStatus)
    (hp : info.status = "paid") (hex : find_completed_txn s.transactions inv = none) :
    check_deposit s uid inv (some info) =
      ({ users := inc_first_balance uid info.amount s.users,
         transactions := mark_completed inv s.transactions,
         games_history := s.games_history }, CheckDepRes.success info.amount) := by
  unfold check_deposit
  dsimp only
  rw [if_pos hp, hex]
  rfl

theorem check_deposit_paid_already (s : St) (uid : ℕ) (inv : String) (info : GwInvoiceStatus)
    (t : TxnRec) (hp : info.status = "paid")
    (hex : find_completed_txn s.transactions inv = some t) :
    check_deposit s uid inv (some info) = (s, CheckDepRes.success info.amount) := by
  unfold check_deposit
  dsimp only
  rw [if_pos hp, hex]

/-! Helper lemmas for the game-engine claims. -/

theorem symAt_mem (n : ℕ) : symAt n ∈ symbols := List.get_mem _ _ _

theorem slots_multiplier_matches_spec (a b c : String) :
    (if a = b ∧ b = c then
      if a = "7️⃣" then (10 : ℚ)
      else if a = "💎" then 5
      else 3
    else if a = b ∨ b = c then 3/2
    else 0) = specSlotsMultiplier a b c := by
  unfold specSlotsMultiplier
  by_cases h1 : a = b ∧ b = c
  · rw [if_pos h1, if_pos h1]
  · rw [if_neg h1, if_neg h1]
    by_cases h2 : a = b ∨ b = c
    · rw [if_pos h2, if_pos (by tauto)]
    · rw [if_neg h2, if_neg (by tauto)]

theorem roulette_game_is_win_eq (bet : ℚ) (rng : Rng) :
    (roulette_game bet rng).is_win = decide (rng.floats 0 < 48/100) := rfl

theorem roulette_game_multiplier_eq (bet : ℚ) (rng : Rng) :
    (roulette_game bet rng).multiplier = (if rng.floats 0 < 48/100 then (2 : ℚ) else 0) := by
  show (if decide (rng.floats 0 < 48/100) = true then (2 : ℚ) else 0) = _
  by_cases h : rng.floats 0 < 48/100
  · rw [if_pos (by simpa using h), if_pos h]
  · rw [if_neg (by simpa using h), if_neg h]

theorem roulette_game_win_amount_eq (bet : ℚ) (rng : Rng) :
    (roulette_game bet rng).win_amount = (if rng.floats 0 < 48/100 then 2 * bet else 0) := by
  show bet * (if decide (rng.floats 0 < 48/100) = true then (2 : ℚ) else 0) = _
  by_cases h : rng.floats 0 < 48/100
  · rw [if_pos (by simpa using h), if_pos h, mul_comm]
  · rw [if_neg (by simpa using h), if_neg h, mul_zero]

/-! The claims. -/

/-- C6: for every bet amount and randomness stream, the slots game draws
three symbols from the fixed 6-symbol set and pays according to the table
(10 for a triple top symbol, 5 for a triple second-tier symbol, 3 for any
other triple, 1.5 for exactly an adjacent pair at positions 0-1 or 1-2, 0
otherwise), with the win amount equal to the bet times the multiplier; in
particular bet 10 with reels [💎, 💎, 💎] wins 50. -/
theorem c6_slots_payout_table :
    (∀ (bet : ℚ) (rng : Rng), ∃ r0 r1 r2 : String,
      (slots_game bet rng).outcome = Outcome.slots [r0, r1, r2] ∧
      r0 ∈ symbols ∧ r1 ∈ symbols ∧ r2 ∈ symbols ∧
      (slots_game bet rng).multiplier = specSlotsMultiplier r0 r1 r2 ∧
      (slots_game bet rng).win_amount = bet * specSlotsMultiplier r0 r1 r2) ∧
    ((slots_game 10 { ints := fun _ => 4, floats := fun _ => 0 }).outcome =
        Outcome.slots ["💎", "💎", "💎"] ∧
      (slots_game 10 { ints := fun _ => 4, floats := fun _ => 0 }).win_amount = 50) := by
  refine ⟨fun bet rng => ?_,
    by norm_num [slots_game, symAt, symbols],
    by norm_num [slots_game, symAt, symbols]; all_goals decide⟩
  refine ⟨symAt (rng.ints 0), symAt (rng.ints 1), symAt (rng.ints 2), rfl,
    symAt_mem _, symAt_mem _, symAt_mem _, ?_, ?_⟩
  · exact slots_multiplier_matches_spec _ _ _
  · exact congrArg (fun m => bet * m) (slots_multiplier_matches_spec _ _ _)

/-- C7: for every bet amount and randomness stream, roulette's win flag is
exactly the Bernoulli draw `random() < 0.48`; on a win the multiplier is 2
and the win amount 2×bet, otherwise both are zero; and the result is
independent of the drawn number/color — any two streams agreeing on the
`random()` draw produce the same win flag, multiplier and win amount. -/
theorem c7_roulette_bernoulli_win :
    (∀ (bet : ℚ) (rng : Rng),
      (roulette_game bet rng).is_win = decide (rng.floats 0 < 48/100) ∧
      (roulette_game bet rng).multiplier = (if rng.floats 0 < 48/100 then (2 : ℚ) else 0) ∧
      (roulette_game bet rng).win_amount = (if rng.floats 0 < 48/100 then 2 * bet else 0)) ∧
    (∀ (bet : ℚ) (rng rng' : Rng), rng.floats 0 = rng'.floats 0 →
      (roulette_game bet rng).is_win = (roulette_game bet rng').is_win ∧
      (roulette_game bet rng).multiplier = (roulette_game bet rng').multiplier ∧
      (roulette_game bet rng).win_amount = (roulette_game bet rng').win_amount) := by
  constructor
  · exact fun bet rng =>
      ⟨roulette_game_is_win_eq bet rng, roulette_game_multiplier_eq bet rng,
        roulette_game_win_amount_eq bet rng⟩
  · intro bet rng rng' hf
    refine ⟨?_, ?_, ?_⟩
    · rw [roulette_game_is_win_eq, roulette_game_is_win_eq, hf]
    · rw [roulette_game_multiplier_eq, roulette_game_multiplier_eq, hf]
    · rw [roulette_game_win_amount_eq, roulette_game_win_amount_eq, hf]

/-- C7 witness: two concrete streams that draw different roulette numbers
(5 and 17) but the same `random()` value produce identical win flag,
multiplier and win amount. -/
theorem c7_roulette_bernoulli_win_witness :
    (roulette_game 3 { ints := fun _ => 5, floats := fun _ => 1/4 }).is_win =
      (roulette_game 3 { ints := fun _ => 17, floats := fun _ => 1/4 }).is_win ∧
    (roulette_game 3 { ints := fun _ => 5, floats := fun _ => 1/4 }).win_amount =
      (roulette_game 3 { ints := fun _ => 17, floats := fun _ => 1/4 }).win_amount :=
  ⟨(c7_roulette_bernoulli_win.2 3 _ _ rfl).1, (c7_roulette_bernoulli_win.2 3 _ _ rfl).2.2⟩

/-- C9: every game type other than slots and roulette is dispatched to the
slots game with the same bet and randomness stream. -/
theorem c9_unknown_game_type_falls_back_to_slots (game_type : String) (bet : ℚ) (rng : Rng)
    (h1 : game_type ≠ "slots") (h2 : game_type ≠ "roulette") :
    process_game game_type bet rng = slots_game bet rng := by
  unfold process_game
  rw [if_neg h1, if_neg h2]

/-- Full evaluation of the accepted bet path: state and response.  The new
balance reported back is the re-read balance after the debit of the bet and
the credit of the win. -/
theorem game_play_accept (cfg : Config) (s : St) (uid : ℕ) (gt : String) (bet : ℚ)
    (rng : Rng) (user : UserRec) (hv : 1/10 ≤ bet ∧ bet ≤ cfg.max_bet)
    (hu : find_user s uid = some user) (hb : ¬ user.balance < bet) :
    game_play cfg s uid gt bet rng =
      ({ users := inc_first_balance uid (process_game gt bet rng).win_amount
            (inc_first_balance uid (-bet) s.users),
         transactions := s.transactions,
         games_history := s.games_history ++
           [{ user_id := uid, game_type := gt, bet_amount := bet,
              win_amount := (process_game gt bet rng).win_amount }] },
       PlayRes.ok (process_game gt bet rng)
         (user.balance + -bet + (process_game gt bet rng).win_amount)) := by
  have hu' : s.users.find? (fun u => decide (u.user_id = uid)) = some user := hu
  have h1 := find?_inc_first_eq (-bet) hu'
  have h2 := find?_inc_first_eq ((process_game gt bet rng).win_amount) h1
  unfold game_play
  rw [if_neg (not_not_intro hv), hu]
  dsimp only
  rw [if_neg hb]
  dsimp only [adjust_balance]
  have hbal : balanceOf
      { users := inc_first_balance uid (process_game gt bet rng).win_amount
          (inc_first_balance uid (-bet) s.users),
        transactions := s.transactions,
        games_history := s.games_history ++
          [{ user_id := uid, game_type := gt, bet_amount := bet,
             win_amount := (process_game gt bet rng).win_amount }] } uid =
      some (user.balance + -bet + (process_game gt bet rng).win_amount) := by
    unfold balanceOf find_user
    dsimp only
    rw [h2]
    rfl
  rw [hbal]

/-- C2: a game-play request that passes validation, whose user exists and
whose balance covers the bet, ends with the stored balance equal to the
balance before minus the bet plus the win amount, and that win amount is
exactly the one computed by the pure game function from the game variant,
the bet and the randomness stream. -/
theorem c2_game_play_balance_equation (cfg : Config) (s : St) (uid : ℕ) (gt : String)
    (bet : ℚ) (rng : Rng) (user : UserRec)
    (hv : 1/10 ≤ bet ∧ bet ≤ cfg.max_bet)
    (hu : find_user s uid = some user)
    (hb : ¬ user.balance < bet) :
    (game_play cfg s uid gt bet rng).2 =
      PlayRes.ok (process_game gt bet rng)
        (user.balance - bet + (process_game gt bet rng).win_amount) ∧
    balanceOf (game_play cfg s uid gt bet rng).1 uid =
      some (user.balance - bet + (process_game gt bet rng).win_amount) := by
  rw [game_play_accept cfg s uid gt bet rng user hv hu hb]
  constructor
  · rw [sub_eq_add_neg]
  · have hu' : s.users.find? (fun u => decide (u.user_id = uid)) = some user := hu
    have h2 := find?_inc_first_eq ((process_game gt bet rng).win_amount)
      (find?_inc_first_eq (-bet) hu')
    unfold balanceOf find_user
    dsimp only
    rw [h2, sub_eq_add_neg]
    rfl

/-- C2 witness: user 1 with balance 5 bets 1 on slots with a stream drawing
three 🍒 (triple, multiplier 3, win 3); the reported and stored balance is
5 - 1 + 3 = 7. -/
theorem c2_game_play_balance_equation_witness :
    (game_play { min_deposit := 1, min_withdraw := 1, max_bet := 100 }
        { users := [{ user_id := 1, balance := 5 }], transactions := [], games_history := [] }
        1 ("slots") 1 { ints := fun _ => 0, floats := fun _ => 0 }).2 =
      PlayRes.ok (process_game ("slots") 1 { ints := fun _ => 0, floats := fun _ => 0 })
        (5 - 1 + (process_game ("slots") 1 { ints := fun _ => 0, floats := fun _ => 0 }).win_amount) ∧
    balanceOf (game_play { min_deposit := 1, min_withdraw := 1, max_bet := 100 }
        { users := [{ user_id := 1, balance := 5 }], transactions := [], games_history := [] }
        1 ("slots") 1 { ints := fun _ => 0, floats := fun _ => 0 }).1 1 =
      some (5 - 1 + (process_game ("slots") 1 { ints := fun _ => 0, floats := fun _ => 0 }).win_amount) :=
  c2_game_play_balance_equation _ _ 1 _ 1 _ { user_id := 1, balance := 5 }
    (by norm_num) rfl (by norm_num)

/-- C5: recording a transaction whose external reference id is already
present in the store raises the duplicate-key error of the unique
`invoice_id` index and leaves the collection exactly as it was. -/
theorem c5_duplicate_reference_rejected (txns : List TxnRec) (r t : TxnRec) (inv : String)
    (hr : r.invoice_id = some inv) (ht : t ∈ txns) (hti : t.invoice_id = some inv) :
    insert_one txns r = (txns, InsertRes.duplicateKeyError) := by
  have hc : txns.any (fun t' => decide (t'.invoice_id = r.invoice_id)) = true :=
    List.any_eq_true.mpr ⟨t, ht, by rw [hti, hr]; exact decide_eq_true rfl⟩
  unfold insert_one
  rw [if_pos hc]

/-- C5 witness: inserting a second transaction bearing the reference id
`inv1` fails with a duplicate-key error and the stored list is unchanged. -/
theorem c5_duplicate_reference_rejected_witness :
    insert_one
        [{ user_id := 1, typ := ("deposit"), amount := 5, status := ("pending"),
           invoice_id := some ("inv1"), check_url := none }]
        { user_id := 2, typ := ("deposit"), amount := 6, status := ("pending"),
          invoice_id := some ("inv1"), check_url := none } =
      ([{ user_id := 1, typ := ("deposit"), amount := 5, status := ("pending"),
          invoice_id := some ("inv1"), check_url := none }], InsertRes.duplicateKeyError) :=
  c5_duplicate_reference_rejected _ _
    { user_id := 1, typ := ("deposit"), amount := 5, status := ("pending"),
      invoice_id := some ("inv1"), check_url := none }
    ("inv1") rfl (List.mem_singleton.mpr rfl) rfl

/-- C4: when the gateway's check creation fails, the withdrawal is reported
failed with the store untouched (the balance equals its pre-debit value
because the debit is only performed after a successful check creation); and
in general no withdrawal invocation changes the `users` collection unless
the gateway returned a check. -/
theorem c4_withdraw_gateway_failure_atomic (cfg : Config) (s : St) (uid : ℕ) (amount : ℚ)
    (user : UserRec) (hmin : ¬ amount < cfg.min_withdraw)
    (hu : find_user s uid = some user) (hb : ¬ user.balance < amount) :
    process_withdraw cfg s uid amount none = (s, WithdrawRes.gatewayError) ∧
    (∀ (s' : St) (uid' : ℕ) (amount' : ℚ) (gw : Option CheckInfo),
      (process_withdraw cfg s' uid' amount' gw).1.users ≠ s'.users → gw ≠ none) := by
  constructor
  · exact process_withdraw_gw_failure cfg s uid amount user hmin hu hb
  · intro s' uid' amount' gw hne
    cases gw with
    | some check => simp
    | none =>
      exfalso
      apply hne
      by_cases hmin' : amount' < cfg.min_withdraw
      · rw [process_withdraw_belowMin cfg s' uid' amount' none hmin']
      · cases hu' : find_user s' uid' with
        | none => rw [process_withdraw_no_user cfg s' uid' amount' none hmin' hu']
        | some user' =>
          by_cases hb' : user'.balance < amount'
          · rw [process_withdraw_insufficient cfg s' uid' amount' none user' hmin' hu' hb']
          · rw [process_withdraw_gw_failure cfg s' uid' amount' user' hmin' hu' hb']

/-- C4 witness: user 1 with balance 10 withdraws 5 when the gateway fails;
the operation reports a gateway error and the store is unchanged. -/
theorem c4_withdraw_gateway_failure_atomic_witness :
    process_withdraw { min_deposit := 1, min_withdraw := 1, max_bet := 100 }
        { users := [{ user_id := 1, balance := 10 }], transactions := [], games_history := [] }
        1 5 none =
      ({ users := [{ user_id := 1, balance := 10 }], transactions := [], games_history := [] },
        WithdrawRes.gatewayError) :=
  (c4_withdraw_gateway_failure_atomic { min_deposit := 1, min_withdraw := 1, max_bet := 100 }
    { users := [{ user_id := 1, balance := 10 }], transactions := [], games_history := [] }
    1 5 { user_id := 1, balance := 10 } (by norm_num) rfl (by norm_num)).1

/-- C3: every state reachable by any sequence of engine operations (with the
gateway never reporting a negative paid amount) has only non-negative
balances; and an operation whose debit would overdraw — a bet exceeding the
balance, or a withdrawal exceeding the balance — is rejected with the store
unchanged. -/
theorem c3_balance_never_negative (cfg : Config) :
    (∀ evs : List Ev, (∀ e ∈ evs, WfEv e) → NNBal (runEvents cfg evs).users) ∧
    (∀ (s : St) (uid : ℕ) (gt : String) (bet : ℚ) (rng : Rng) (user : UserRec),
      (1/10 ≤ bet ∧ bet ≤ cfg.max_bet) → find_user s uid = some user →
      user.balance < bet →
      game_play cfg s uid gt bet rng = (s, PlayRes.insufficientBalance)) ∧
    (∀ (s : St) (uid : ℕ) (amount : ℚ) (gw : Option CheckInfo) (user : UserRec),
      ¬ amount < cfg.min_withdraw → find_user s uid = some user →
      user.balance < amount →
      process_withdraw cfg s uid amount gw = (s, WithdrawRes.insufficientFunds)) := by
  refine ⟨?_, ?_, ?_⟩
  · intro evs he
    exact nn_foldl cfg evs _ he (fun u hu => absurd hu (List.not_mem_nil u))
  · intro s uid gt bet rng user hv hu hb
    exact game_play_insufficient cfg s uid gt bet rng user hv hu hb
  · intro s uid amount gw user hmin hu hb
    exact process_withdraw_insufficient cfg s uid amount gw user hmin hu hb

/-- C3 witness: a concrete run — create user 1, confirm a paid 5-unit
deposit, bet 1 on slots, withdraw 3 — ends with non-negative balances, and
concrete overdrawing bet/withdrawal requests bounce without touching the
store. -/
theorem c3_balance_never_negative_witness :
    NNBal (runEvents { min_deposit := 1, min_withdraw := 1, max_bet := 100 }
      [Ev.start 1,
       Ev.depositCheck 1 ("i1") (some { status := ("paid"), amount := 5 }),
       Ev.play 1 ("slots") 1 { ints := fun _ => 0, floats := fun _ => 0 },
       Ev.withdraw 1 3 (some { check_id := ("c1"), bot_check_url := ("u1") })]).users ∧
    game_play { min_deposit := 1, min_withdraw := 1, max_bet := 100 }
        { users := [{ user_id := 1, balance := 2 }], transactions := [], games_history := [] }
        1 ("slots") 3 { ints := fun _ => 0, floats := fun _ => 0 } =
      ({ users := [{ user_id := 1, balance := 2 }], transactions := [], games_history := [] },
        PlayRes.insufficientBalance) ∧
    process_withdraw { min_deposit := 1, min_withdraw := 1, max_bet := 100 }
        { users := [{ user_id := 1, balance := 2 }], transactions := [], games_history := [] }
        1 3 none =
      ({ users := [{ user_id := 1, balance := 2 }], transactions := [], games_history := [] },
        WithdrawRes.insufficientFunds) := by
  refine ⟨?_, ?_, ?_⟩
  · apply (c3_balance_never_negative _).1
    intro e he
    simp only [List.mem_cons, List.mem_singleton] at he
    rcases he with rfl | rfl | rfl | rfl | h
    · trivial
    · norm_num [WfEv]
    · trivial
    · trivial
    · exact absurd h (List.not_mem_nil e)
  · exact (c3_balance_never_negative _).2.1 _ 1 _ 3 _ { user_id := 1, balance := 2 }
      (by norm_num) rfl (by norm_num)
  · exact (c3_balance_never_negative _).2.2 _ 1 3 none { user_id := 1, balance := 2 }
      (by norm_num) rfl (by norm_num)

/-- C1 counterexample: the claim quantifies over every invoice id whose
gateway-reported status is paid, but when the transactions store holds no
record for the invoice id (here: an empty store), the completed-record check
never finds anything and *every* confirmation credits the balance again —
after two confirmations of a paid 5-unit invoice the balance of the invoking
user is 10, not the 5 that crediting exactly once would give. -/
theorem c1_counterexample_unrecorded_invoice :
    balanceOf (confirmN 1 ("inv42") { status := ("paid"), amount := 5 } 2
      { users := [{ user_id := 1, balance := 0 }], transactions := [], games_history := [] }) 1 =
      some 10 ∧
    ¬ balanceOf (confirmN 1 ("inv42") { status := ("paid"), amount := 5 } 2
      { users := [{ user_id := 1, balance := 0 }], transactions := [], games_history := [] }) 1 =
      some 5 := by
  constructor
  · simp [confirmN, check_deposit, find_completed_txn, balanceOf, find_user,
      adjust_balance, inc_first_balance, mark_completed]
    norm_num
  · simp [confirmN, check_deposit, find_completed_txn, balanceOf, find_user,
      adjust_balance, inc_first_balance, mark_completed]

/-- C1 (amended): provided the transactions store holds a unique record
bearing the invoice id and that record is not yet completed (the state Phase
A leaves behind), and the invoking user has an account, then any positive
number of confirmations of a paid invoice credits the gateway-reported
amount exactly once — the final balance is the original plus one credit and
the record is marked completed, every repetition finding the completed
record and changing nothing. -/
theorem c1_deposit_confirm_idempotent_for_recorded_invoice
    (s : St) (uid : ℕ) (inv : String) (info : GwInvoiceStatus) (user : UserRec)
    (l1 l2 : List TxnRec) (t : TxnRec) (n : ℕ)
    (hu : find_user s uid = some user)
    (hpaid : info.status = "paid")
    (hsplit : s.transactions = l1 ++ t :: l2)
    (hl1 : ∀ x ∈ l1, x.invoice_id ≠ some inv)
    (hl2 : ∀ x ∈ l2, x.invoice_id ≠ some inv)
    (ht : t.invoice_id = some inv)
    (hpend : t.status ≠ "completed")
    (hn : 1 ≤ n) :
    balanceOf (confirmN uid inv info n s) uid = some (user.balance + info.amount) ∧
    (confirmN uid inv info n s).transactions =
      l1 ++ { t with status := "completed" } :: l2 := by
  have hex : find_completed_txn s.transactions inv = none := by
    rw [hsplit]
    apply find_completed_txn_eq_none
    intro x hx hxid
    rcases List.mem_append.mp hx with h | h
    · exact absurd hxid (hl1 x h)
    · rcases List.mem_cons.mp h with rfl | h
      · exact hpend
      · exact absurd hxid (hl2 x h)
  have hone : confirmN uid inv info 1 s =
      { users := inc_first_balance uid info.amount s.users,
        transactions := mark_completed inv s.transactions,
        games_history := s.games_history } := by
    show (check_deposit s uid inv (some info)).1 = _
    rw [check_deposit_paid_fresh s uid inv info hpaid hex]
  have htr1 : mark_completed inv s.transactions =
      l1 ++ { t with status := "completed" } :: l2 := by
    rw [hsplit]
    exact mark_completed_split hl1 ht
  have hmem : ({ t with status := "completed" } : TxnRec) ∈
      mark_completed inv s.transactions := by
    rw [htr1]
    exact List.mem_append_right _ (List.mem_cons_self _ _)
  obtain ⟨t', ht'⟩ := find_completed_txn_mem hmem (by simpa using ht) rfl
  have hstay : ∀ m, 1 ≤ m → confirmN uid inv info m s =
      { users := inc_first_balance uid info.amount s.users,
        transactions := mark_completed inv s.transactions,
        games_history := s.games_history } := by
    intro m hm
    obtain ⟨k, rfl⟩ : ∃ k, m = k + 1 := ⟨m - 1, by omega⟩
    induction k with
    | zero => exact hone
    | succ k' ih =>
      show (check_deposit (confirmN uid inv info (k' + 1) s) uid inv (some info)).1 = _
      rw [ih (by omega)]
      rw [check_deposit_paid_already _ uid inv info t' hpaid ht']
  refine ⟨?_, ?_⟩
  · rw [hstay n hn]
    have hu' : s.users.find? (fun u => decide (u.user_id = uid)) = some user := hu
    unfold balanceOf find_user
    dsimp only
    rw [find?_inc_first_eq info.amount hu']
    rfl
  · rw [hstay n hn]
    exact htr1

/-- C1 witness: user 1 (balance 2) confirms invoice `i9` three times; the
store held one pending deposit record for `i9` (recorded for user 2 with
amount 5, while the gateway reports 7 paid); the balance ends at 2 + 7,
credited exactly once, and the record is completed. -/
theorem c1_deposit_confirm_idempotent_for_recorded_invoice_witness :
    balanceOf (confirmN 1 ("i9") { status := ("paid"), amount := 7 } 3
      ⟨[⟨1, 2⟩], [⟨2, ("deposit"), 5, ("pending"), some ("i9"), none⟩], []⟩) 1 =
      some (2 + 7) ∧
    (confirmN 1 ("i9") { status := ("paid"), amount := 7 } 3
      ⟨[⟨1, 2⟩], [⟨2, ("deposit"), 5, ("pending"), some ("i9"), none⟩], []⟩).transactions =
      [⟨2, ("deposit"), 5, ("completed"), some ("i9"), none⟩] := by
  have h := c1_deposit_confirm_idempotent_for_recorded_invoice
    ⟨[⟨1, 2⟩], [⟨2, ("deposit"), 5, ("pending"), some ("i9"), none⟩], []⟩
    1 ("i9") { status := ("paid"), amount := 7 } ⟨1, 2⟩
    [] [] ⟨2, ("deposit"), 5, ("pending"), some ("i9"), none⟩
    3 rfl rfl rfl
    (fun x hx => absurd hx (List.not_mem_nil x))
    (fun x hx => absurd hx (List.not_mem_nil x))
    rfl (by decide) (by omega)
  exact h

/-- C10: the first confirmation of a paid invoice whose pending record is in
the store credits the *gateway-reported* amount — not the amount stored on
the pending record — and credits it to the *invoking* user's account, while
the balance of every other user (in particular the user recorded on the
pending transaction, when different) is untouched. -/
theorem c10_deposit_credits_gateway_amount_to_invoker
    (s : St) (uid : ℕ) (inv : String) (info : GwInvoiceStatus) (user : UserRec)
    (l1 l2 : List TxnRec) (t : TxnRec)
    (hu : find_user s uid = some user)
    (hpaid : info.status = "paid")
    (hsplit : s.transactions = l1 ++ t :: l2)
    (hl1 : ∀ x ∈ l1, x.invoice_id ≠ some inv)
    (hl2 : ∀ x ∈ l2, x.invoice_id ≠ some inv)
    (ht : t.invoice_id = some inv)
    (hpend : t.status ≠ "completed") :
    balanceOf (check_deposit s uid inv (some info)).1 uid =
      some (user.balance + info.amount) ∧
    (∀ uid' : ℕ, uid' ≠ uid →
      balanceOf (check_deposit s uid inv (some info)).1 uid' = balanceOf s uid') := by
  have hex : find_completed_txn s.transactions inv = none := by
    rw [hsplit]
    apply find_completed_txn_eq_none
    intro x hx hxid
    rcases List.mem_append.mp hx with h | h
    · exact absurd hxid (hl1 x h)
    · rcases List.mem_cons.mp h with rfl | h
      · exact hpend
      · exact absurd hxid (hl2 x h)
  rw [check_deposit_paid_fresh s uid inv info hpaid hex]
  constructor
  · have hu' : s.users.find? (fun u => decide (u.user_id = uid)) = some user := hu
    unfold balanceOf find_user
    dsimp only
    rw [find?_inc_first_eq info.amount hu']
    rfl
  · intro uid' hne
    unfold balanceOf find_user
    dsimp only
    rw [find?_inc_first_ne info.amount hne]

/-- C10 witness: invoice `i7` was recorded pending for user 2 with amount 5,
but user 1 confirms while the gateway reports 7 paid: user 1's balance goes
from 2 to 2 + 7 (the gateway amount), and user 2's balance is unchanged. -/
theorem c10_deposit_credits_gateway_amount_to_invoker_witness :
    balanceOf (check_deposit
      ⟨[⟨1, 2⟩, ⟨2, 50⟩], [⟨2, ("deposit"), 5, ("pending"), some ("i7"), none⟩], []⟩
      1 ("i7") (some { status := ("paid"), amount := 7 })).1 1 = some (2 + 7) ∧
    balanceOf (check_deposit
      ⟨[⟨1, 2⟩, ⟨2, 50⟩], [⟨2, ("deposit"), 5, ("pending"), some ("i7"), none⟩], []⟩
      1 ("i7") (some { status := ("paid"), amount := 7 })).1 2 =
      balanceOf
      ⟨[⟨1, 2⟩, ⟨2, 50⟩], [⟨2, ("deposit"), 5, ("pending"), some ("i7"), none⟩], []⟩ 2 := by
  have h := c10_deposit_credits_gateway_amount_to_invoker
    ⟨[⟨1, 2⟩, ⟨2, 50⟩], [⟨2, ("deposit"), 5, ("pending"), some ("i7"), none⟩], []⟩
    1 ("i7") { status := ("paid"), amount := 7 } ⟨1, 2⟩
    [] [] ⟨2, ("deposit"), 5, ("pending"), some ("i7"), none⟩
    rfl rfl rfl
    (fun x hx => absurd hx (List.not_mem_nil x))
    (fun x hx => absurd hx (List.not_mem_nil x))
    rfl (by decide)
  exact ⟨h.1, h.2 2 (by decide)⟩

/-- C8 (supporting theorem for the code-bug finding): the verifier accepts a
credential exactly when its supplied `hash` field equals the keyed hash —
under the secret derived from the bot token via one keyed hash step with key
`WebAppData` — of the non-signature fields rendered `k=v`, sorted
lexicographically and joined with newline; so any credential whose signature
differs from that value is rejected, and the user id returned is the one the
JSON decoder parses out of the embedded `user` payload.  The comparison
itself, however, is the source's plain string `==`, not a constant-time
comparison. -/
theorem c8_validate_accepts_iff_signature_matches (hm : HmacModel) (botToken : String)
    (pairs : List (String × String)) :
    (validate_telegram_data hm botToken pairs = true ↔
      received_hash (dictOf pairs) =
        hm.hex (hm.raw ("WebAppData") botToken) (data_check_string (dictOf pairs))) ∧
    (∀ parseUserId : String → Option Int,
      extract_user_id parseUserId pairs =
        parseUserId ((((dictOf pairs).find? (fun kv => decide (kv.fst = "user"))).map
          Prod.snd).getD ("\x7b\x7d"))) := by
  constructor
  · unfold validate_telegram_data
    simp only [decide_eq_true_eq]
    exact eq_comm
  · intro parseUserId
    rfl

/-- C9 witness: the unrecognized game type `dice` plays slots. -/
theorem c9_unknown_game_type_falls_back_to_slots_witness :
    ("dice" : String) ≠ "slots" ∧ ("dice" : String) ≠ "roulette" ∧
    process_game ("dice") 7 { ints := fun _ => 1, floats := fun _ => 0 } =
      slots_game 7 { ints := fun _ => 1, floats := fun _ => 0 } :=
  ⟨by decide, by decide,
    c9_unknown_game_type_falls_back_to_slots ("dice") 7 _ (by decide) (by decide)⟩

end CasinoBot
